import Mathlib

/-!
Shallow embedding of `src/app.py` (household-chore checklist tool, the
Google-Drive / Excel-log version) and verification of its specification.

Modelling conventions:
* A pandas `DataFrame` holding the append-only log is a `List Row`, where
  `Row` carries the six columns `timestamp, date, day, task, completed, note`.
  An empty DataFrame (six columns, zero rows) is `[]`.
* A Python `date` value is represented by its ISO string (`isoformat`),
  since the code only ever uses dates through `isoformat()`.
* `datetime.utcnow().isoformat()` is lifted to an explicit `now` argument of
  `upsert_log` (computed once per call, exactly as in the source).
* The Excel byte blob produced/consumed by pandas/openpyxl (an external
  library, not code of this repository) is modelled abstractly by `XlsBytes`:
  either a parseable workbook (a named-sheet map) or malformed bytes on which
  `pd.ExcelFile` raises.  The repository's own load/save logic (sheet naming,
  the `try/except`, the missing-sheet fallback) is embedded faithfully.
* The round-trip behaviour of the codec is additionally modelled at cell
  level (`SheetRow`, `save_log_sheet`, `load_log_sheet`): `to_excel` writes an
  empty string as an empty cell and `read_excel`'s default NA handling reports
  empty text cells as NaN (`none`), so the save/load pipeline is lossy on
  empty-string cells such as an empty `note`.
-/

namespace HelperSchedule

/-- `DAYS` from `src/app.py`: the tool's active operating window. -/
def DAYS : List String :=
  ["Wednesday", "Thursday", "Friday", "Saturday", "Sunday"]

/-- `DAILY_TASKS` from `src/app.py` (13 tasks, fixed list order). -/
def DAILY_TASKS : List String :=
  [ "Open windows 10–15 min; Wipe surfaces/Remove dust/tidy up/Remove fur with glove on sofas, chairs, curtain bottoms silently"
  , "Rinse/wash dishes after meals; dry and clean sink before bedtime"
  , "Wipe dining table & kitchen counters after each meal"
  , "Sweep or spot-vacuum crumbs in living room/kitchen"
  , "Hoover or run robot (avoid baby nap); quick fur spots"
  , "Clean toilets (seat, bowl, rim) + sink; quick shower rinse"
  , "Litter room: check 2–3×; sweep spills; wipe majla if dirty (use gloves and wash hands always afterwards)"
  , "Wipe stovetop after use; degrease backsplash if splashed"
  , "Take out kitchen & litter trash (wash hands afterwards); replace bags"
  , "Laundry – sort colors & load machine in the morning"
  , "Laundry – fold same day and put away neatly"
  , "Wash water pet bowl; refresh water AM/PM"
  , "Laundry – iron shirts/pants as needed"
  ]

/-- `EVERY2_TASKS` from `src/app.py` (2 tasks, due every 2 days). -/
def EVERY2_TASKS : List String :=
  [ "Mop all floors — separate mop (litter room vs house)"
  , "Wipe lower window panes & sills throughout the house"
  ]

/-- `EVERY2_DAYS` from `src/app.py`: the every-2-days weekday set
(a Python `set`, used only for membership tests). -/
def EVERY2_DAYS : List String := ["Wednesday", "Friday", "Sunday"]

/-- `WEEKLY_TASKS_THU` from `src/app.py` (6 tasks bound to Thursday). -/
def WEEKLY_TASKS_THU : List String :=
  [ "Litter tray: empty, wash, refill; scrub surrounding floor"
  , "Pantry quick tidy + expiry scan"
  , "Squeegee shower tiles after last shower"
  , "Mirrors & glass doors"
  , "Clean house entry area"
  , "Refill Soap"
  ]

/-- `WEEKLY_TASKS_SAT` from `src/app.py` (5 tasks bound to Saturday). -/
def WEEKLY_TASKS_SAT : List String :=
  [ "Oven: remove trays; clean inside, door glass, upper parts"
  , "Microwave: clean inside; wipe handle/exterior"
  , "Fridge: wipe exterior & handles; spot-clean shelves (spills)"
  , "Terrace clean: clean furniture; wash floor; wipe railing"
  , "Disinfect doors, handles, and light switches"
  ]

/-- `tasks_for_day` from `src/app.py`: list of tasks scheduled for the
provided day name.  Starts from a copy of `DAILY_TASKS`, extends with
`EVERY2_TASKS` when the day is in `EVERY2_DAYS`, then with the weekly
sub-group bound to Thursday or Saturday. -/
def tasks_for_day (day_name : String) : List String :=
  let tasks := DAILY_TASKS
  let tasks := if day_name ∈ EVERY2_DAYS then tasks ++ EVERY2_TASKS else tasks
  let tasks := if day_name = "Thursday" then tasks ++ WEEKLY_TASKS_THU else tasks
  let tasks := if day_name = "Saturday" then tasks ++ WEEKLY_TASKS_SAT else tasks
  tasks

/-- One row of the append-only Excel log: the six columns
`timestamp, date, day, task, completed, note` of `src/app.py`.
`completed` is the 0/1 integer the code writes. -/
structure Row where
  timestamp : String
  date : String
  day : String
  task : String
  completed : Nat
  note : String
deriving DecidableEq, Repr

/-- Stable insertion of a row into a timestamp-sorted list: the new row goes
in front of rows with an equal timestamp that came later in the original
list order.  Helper for `sortByTs`. -/
def insertByTs (r : Row) : List Row → List Row
  | [] => [r]
  | x :: xs =>
      if x.timestamp < r.timestamp then x :: insertByTs r xs else r :: x :: xs

/-- Stable sort of log rows by the `timestamp` column ascending, embedding
`sub.sort_values("timestamp")` from `latest_status_map` in `src/app.py`. -/
def sortByTs : List Row → List Row
  | [] => []
  | r :: rs => insertByTs r (sortByTs rs)

/-- Embedding of `sub.groupby("task").tail(1)`: keep, in original order, each
row that is the last row of its `task` group (no later row shares its task). -/
def groupTail1 : List Row → List Row
  | [] => []
  | r :: rs =>
      if rs.any (fun x => x.task == r.task) then groupTail1 rs
      else r :: groupTail1 rs

/-- `latest_status_map` from `src/app.py`: for a given date (as its ISO
string), the latest completion status per task.  The Python dict is
modelled as an association list with pairwise-distinct keys, the dict
comprehension `\x7brow["task"]: bool(row["completed"])\x7d` becoming a `map`;
`bool` of the 0/1 integer is `≠ 0`. -/
def latest_status_map (log_df : List Row) (target_date : String) : List (String × Bool) :=
  if log_df = [] then []
  else
    let sub := log_df.filter (fun r => r.date == target_date)
    if sub = [] then []
    else
      let sorted := sortByTs sub
      let latest := groupTail1 sorted
      latest.map (fun r => (r.task, r.completed != 0))

/-- `upsert_log` from `src/app.py`: append one new row per entry of
`task_status` (a Python dict in insertion order, modelled as an association
list) to the append-only log.  `now` is the single
`datetime.utcnow().isoformat()` value computed before the loop;
`completed` is `1 if done else 0`; `note` falls back to `""` when falsy
(for a Python `str`, falsy means empty). -/
def upsert_log (log_df : List Row) (target_date : String) (day_name : String)
    (task_status : List (String × Bool)) (note : String) (now : String) : List Row :=
  let rows := task_status.map (fun p =>
    { timestamp := now
      date := target_date
      day := day_name
      task := p.1
      completed := if p.2 then 1 else 0
      note := if note = "" then "" else note : Row })
  if log_df = [] then rows else log_df ++ rows

/-- Abstract model of the Excel byte blob exchanged with pandas/openpyxl
(an external library): either a workbook, i.e. a list of named sheets each
holding a log table, or malformed bytes on which `pd.ExcelFile` raises. -/
inductive XlsBytes where
  | workbook (sheets : List (String × List Row))
  | malformed
deriving DecidableEq

/-- `_load_log_df_from_bytes` from `src/app.py`: open the workbook; if a
sheet named `"log"` exists, return it; otherwise, or when parsing raises,
return the empty log table. -/
def _load_log_df_from_bytes : XlsBytes → List Row
  | XlsBytes.malformed => []
  | XlsBytes.workbook sheets =>
      match sheets.lookup "log" with
      | some df => df
      | none => []

/-- Modelled from the spec (the task-slug derivation of §6 exists in other
versions of this tool, not in `src/app.py`): lowercase the display text,
replace every character that is not a letter or digit by a single separator
character, truncate to 200. -/
def slug_from_spec (s : String) : String :=
  String.mk (((s.data.map Char.toLower).map (fun c => if c.isAlphanum then c else '_')).take 200)

/-- C7: `tasks_for_day "Wednesday"` is exactly the 13 Daily tasks followed by
the 2 EveryTwoDays tasks — 15 items — and contains no task from either
Weekly sub-group. -/
theorem tasks_for_day_wednesday :
    tasks_for_day "Wednesday" = DAILY_TASKS ++ EVERY2_TASKS ∧
    DAILY_TASKS.length = 13 ∧ EVERY2_TASKS.length = 2 ∧
    (tasks_for_day "Wednesday").length = 15 ∧
    ((WEEKLY_TASKS_THU ++ WEEKLY_TASKS_SAT).all
      (fun t => !((tasks_for_day "Wednesday").contains t))) = true := by
  refine ⟨by decide, rfl, rfl, by decide, by decide⟩

/-- C8: `tasks_for_day "Thursday"` is exactly the 13 Daily tasks followed by
the 6 Thursday-weekly tasks — 19 items — and none of the EveryTwoDays tasks
appear in it. -/
theorem tasks_for_day_thursday :
    tasks_for_day "Thursday" = DAILY_TASKS ++ WEEKLY_TASKS_THU ∧
    WEEKLY_TASKS_THU.length = 6 ∧
    (tasks_for_day "Thursday").length = 19 ∧
    (EVERY2_TASKS.all (fun t => !((tasks_for_day "Thursday").contains t))) = true := by
  refine ⟨by decide, rfl, by decide, by decide⟩

/-- C1: for every weekday-name string, `tasks_for_day` is the Daily tasks in
fixed order, then the EveryTwoDays tasks iff the name is in
`\x7bWednesday, Friday, Sunday\x7d`, then the weekly sub-group bound to the name
(Thursday-group or Saturday-group, at most one); in particular any other
name yields exactly the Daily tasks in original order. -/
theorem tasks_for_day_spec (s : String) :
    tasks_for_day s =
      DAILY_TASKS ++ (if s ∈ EVERY2_DAYS then EVERY2_TASKS else []) ++
        (if s = "Thursday" then WEEKLY_TASKS_THU
         else if s = "Saturday" then WEEKLY_TASKS_SAT else []) ∧
    (s ∉ EVERY2_DAYS → s ≠ "Thursday" → s ≠ "Saturday" →
      tasks_for_day s = DAILY_TASKS) := by
  constructor
  · by_cases h1 : s ∈ EVERY2_DAYS <;>
      by_cases h2 : s = "Thursday" <;>
      by_cases h3 : s = "Saturday" <;>
      simp_all [tasks_for_day, List.append_assoc]
  · intro h1 h2 h3
    simp [tasks_for_day, h1, h2, h3]

/-- Witness for the implication part of C1: an unrecognized weekday string
yields exactly the Daily tasks. -/
theorem tasks_for_day_spec_witness : tasks_for_day "Monday" = DAILY_TASKS :=
  (tasks_for_day_spec "Monday").2 (by decide) (by decide) (by decide)

/-- C10: for every input string, the schedule contains pairwise-distinct
task strings (the configuration lists are duplicate-free and mutually
disjoint as combined by `tasks_for_day`). -/
theorem tasks_for_day_nodup (s : String) : (tasks_for_day s).Nodup := by
  by_cases h1 : s ∈ EVERY2_DAYS <;>
    by_cases h2 : s = "Thursday" <;>
    by_cases h3 : s = "Saturday" <;>
    simp only [tasks_for_day, h1, h2, h3, if_true, if_false] <;>
    decide

/-- Helper: `upsert_log` always equals the prior log followed by one freshly
built row per entry of the status map (the `log_df.empty` branch only avoids
a pandas quirk; as lists both branches agree). -/
theorem upsert_log_eq (log_df : List Row) (d day : String)
    (st : List (String × Bool)) (note now : String) :
    upsert_log log_df d day st note now =
      log_df ++ st.map (fun p =>
        { timestamp := now, date := d, day := day, task := p.1,
          completed := if p.2 then 1 else 0,
          note := if note = "" then "" else note : Row }) := by
  unfold upsert_log
  by_cases h : log_df = [] <;> simp [h]

/-- C3: saving is append-only and frame-preserving — the result is every
prior row unchanged and in order, followed by exactly one new row per task
of the status map, holding the ISO date, day name, task text, 1/0-encoded
completion, and the note (empty when the note string is falsy). -/
theorem upsert_log_append_only (log_df : List Row) (d day : String)
    (st : List (String × Bool)) (note now : String) :
    (upsert_log log_df d day st note now).take log_df.length = log_df ∧
    (upsert_log log_df d day st note now).drop log_df.length =
      st.map (fun p =>
        { timestamp := now, date := d, day := day, task := p.1,
          completed := if p.2 then 1 else 0,
          note := if note = "" then "" else note : Row }) := by
  rw [upsert_log_eq]
  exact ⟨List.take_left .., List.drop_left ..⟩

/-- C9: every row appended by a single `upsert_log` call carries the same
timestamp (computed once before the per-task loop), so one save is a single
consistent snapshot under sort-by-timestamp. -/
theorem upsert_log_single_timestamp (log_df : List Row) (d day : String)
    (st : List (String × Bool)) (note now : String) (r : Row)
    (hr : r ∈ (upsert_log log_df d day st note now).drop log_df.length) :
    r.timestamp = now := by
  rw [upsert_log_eq, List.drop_left] at hr
  obtain ⟨p, _, rfl⟩ := List.mem_map.mp hr
  rfl

/-- Witness for C9: in a concrete two-task save onto the empty log, the
first appended row carries the shared timestamp. -/
theorem upsert_log_single_timestamp_witness :
    (⟨"t0", "2024-06-12", "Wednesday", "a", 1, ""⟩ : Row).timestamp = "t0" :=
  upsert_log_single_timestamp [] "2024-06-12" "Wednesday"
    [("a", true), ("b", false)] "" "t0" _ (by decide)

/-- Helper: looking up a task in the association list built from
`groupTail1` gives the completion flag of the last row of that task. -/
theorem lookup_map_groupTail1 (t : String) (l : List Row) :
    ((groupTail1 l).map (fun r => (r.task, r.completed != 0))).lookup t =
      ((l.filter (fun r => r.task == t)).getLast?).map (fun r => r.completed != 0) := by
  induction l with
  | nil => rfl
  | cons r rs ih =>
    by_cases h : rs.any (fun x => x.task == r.task) = true
    · rw [groupTail1, if_pos h, List.filter_cons]
      by_cases ht : (r.task == t) = true
      · have hr : r.task = t := by simpa using ht
        simp only [ht, if_true]
        obtain ⟨x, hx, hxt⟩ := List.any_eq_true.mp h
        have hxf : x ∈ rs.filter (fun r => r.task == t) := by
          refine List.mem_filter.mpr ⟨hx, ?_⟩
          have hxr : x.task = r.task := by simpa using hxt
          simp [hxr, hr]
        obtain ⟨y, ys, hys⟩ :=
          List.exists_cons_of_ne_nil (List.ne_nil_of_mem hxf)
        rw [ih, hys, List.getLast?_cons_cons]
      · simp only [ht, if_false]
        exact ih
    · rw [groupTail1, if_neg h, List.map_cons, List.filter_cons]
      by_cases ht : (r.task == t) = true
      · have hr : r.task = t := by simpa using ht
        have hnil : rs.filter (fun r => r.task == t) = [] := by
          refine List.filter_eq_nil_iff.mpr (fun a ha hat => ?_)
          exact h (List.any_eq_true.mpr ⟨a, ha, by simp_all⟩)
        have htr : (t == r.task) = true := by simp [hr]
        simp [List.lookup_cons, ht, htr, hnil]
      · have hr : r.task ≠ t := by simpa using ht
        have ht2 : (t == r.task) = false := by
          simp [Ne.symm hr]
        simp only [ht, if_false, List.lookup_cons, ht2]
        exact ih

/-- C2: for every log table and target date, `latest_status_map` binds each
task to the completion boolean of the last row for that (date, task) when
the date-matching rows are sorted by timestamp ascending; a task with no
matching row is absent (lookup yields `none`). -/
theorem latest_status_map_spec (log_df : List Row) (d t : String) :
    (latest_status_map log_df d).lookup t =
      (((sortByTs (log_df.filter (fun r => r.date == d))).filter
          (fun r => r.task == t)).getLast?).map (fun r => r.completed != 0) := by
  unfold latest_status_map
  by_cases h0 : log_df = []
  · simp [h0, sortByTs]
  · simp only [h0, if_false]
    by_cases h1 : log_df.filter (fun r => r.date == d) = []
    · simp [h1, sortByTs]
    · simp only [h1, if_false]
      exact lookup_map_groupTail1 t _

/-- C4: loading the durable document never fails the caller — on malformed
bytes (pandas raises) or a workbook without a `"log"` sheet, the result is
the empty log table (six columns, no rows), not an error.  Totality is
inherent in the embedding: `_load_log_df_from_bytes` is a total function. -/
theorem load_log_bad_input_empty (b : XlsBytes)
    (h : b = XlsBytes.malformed ∨
      ∃ sheets, b = XlsBytes.workbook sheets ∧ sheets.lookup "log" = none) :
    _load_log_df_from_bytes b = [] := by
  rcases h with rfl | ⟨sheets, rfl, hs⟩
  · rfl
  · simp [_load_log_df_from_bytes, hs]

/-- Witness for C4: loading malformed bytes yields the empty log table. -/
theorem load_log_bad_input_empty_witness :
    _load_log_df_from_bytes XlsBytes.malformed = [] :=
  load_log_bad_input_empty XlsBytes.malformed (Or.inl rfl)

/-- Counterexample to C6 as stated: `upsert_log` records the completion flag
under the raw display text, not under the spec's normalized slug.  For the
task "Refill Soap", the stored key is "Refill Soap", which differs from the
slug "refill_soap"; looking up the slug in `latest_status_map` finds
nothing while the raw text finds the flag. -/
theorem storage_key_not_slug :
    ((upsert_log [] "2024-06-12" "Thursday" [("Refill Soap", true)] "" "t0").map
        (fun r => r.task)) = ["Refill Soap"] ∧
    slug_from_spec "Refill Soap" = "refill_soap" ∧
    ("Refill Soap" : String) ≠ slug_from_spec "Refill Soap" ∧
    ((latest_status_map
        (upsert_log [] "2024-06-12" "Thursday" [("Refill Soap", true)] "" "t0")
        "2024-06-12").lookup "Refill Soap") = some true ∧
    ((latest_status_map
        (upsert_log [] "2024-06-12" "Thursday" [("Refill Soap", true)] "" "t0")
        "2024-06-12").lookup (slug_from_spec "Refill Soap")) = none := by
  refine ⟨by decide, by decide, by decide, by decide, by decide⟩

/-- Helper: membership in `insertByTs r l` means being `r` or in `l`. -/
theorem mem_insertByTs (x r : Row) : ∀ (l : List Row), x ∈ insertByTs r l → x = r ∨ x ∈ l
  | [], h => by simpa [insertByTs] using h
  | a :: as, h => by
    rw [insertByTs] at h
    by_cases hc : a.timestamp < r.timestamp
    · rw [if_pos hc] at h
      rcases List.mem_cons.mp h with h1 | h2
      · exact Or.inr (List.mem_cons.mpr (Or.inl h1))
      · rcases mem_insertByTs x r as h2 with h3 | h4
        · exact Or.inl h3
        · exact Or.inr (List.mem_cons.mpr (Or.inr h4))
    · rw [if_neg hc] at h
      rcases List.mem_cons.mp h with h1 | h2
      · exact Or.inl h1
      · exact Or.inr h2

/-- Helper: `sortByTs` only permutes rows, so membership is preserved. -/
theorem mem_sortByTs (x : Row) : ∀ (l : List Row), x ∈ sortByTs l → x ∈ l
  | [], h => by simpa [sortByTs] using h
  | r :: rs, h => by
    rw [sortByTs] at h
    rcases mem_insertByTs x r _ h with h1 | h2
    · exact List.mem_cons.mpr (Or.inl h1)
    · exact List.mem_cons.mpr (Or.inr (mem_sortByTs x rs h2))

/-- Helper: `groupTail1` only drops rows, so membership is preserved. -/
theorem mem_groupTail1 (x : Row) : ∀ (l : List Row), x ∈ groupTail1 l → x ∈ l
  | [], h => by simpa [groupTail1] using h
  | r :: rs, h => by
    rw [groupTail1] at h
    by_cases hc : rs.any (fun y => y.task == r.task) = true
    · rw [if_pos hc] at h
      exact List.mem_cons.mpr (Or.inr (mem_groupTail1 x rs h))
    · rw [if_neg hc] at h
      rcases List.mem_cons.mp h with h1 | h2
      · exact List.mem_cons.mpr (Or.inl h1)
      · exact List.mem_cons.mpr (Or.inr (mem_groupTail1 x rs h2))

/-- C6 amended: the storage key under which a task's completion flag is
recorded and looked up is the task's raw display text itself — `upsert_log`
writes each status-map key verbatim into the `task` column, and every key
of `latest_status_map` is the `task` column of a date-matching row. -/
theorem storage_key_is_display_text (log_df : List Row) (d day : String)
    (st : List (String × Bool)) (note now : String) :
    ((upsert_log log_df d day st note now).drop log_df.length).map (fun r => r.task)
        = st.map Prod.fst ∧
    ∀ (df2 : List Row) (d2 : String) (p : String × Bool),
      p ∈ latest_status_map df2 d2 →
        ∃ r, r ∈ df2 ∧ r.date = d2 ∧ r.task = p.1 := by
  constructor
  · rw [upsert_log_eq, List.drop_left, List.map_map]
    rfl
  · intro df2 d2 p hp
    unfold latest_status_map at hp
    by_cases h0 : df2 = []
    · simp [h0] at hp
    · simp only [h0, if_false] at hp
      by_cases h1 : df2.filter (fun r => r.date == d2) = []
      · simp [h1] at hp
      · simp only [h1, if_false] at hp
        obtain ⟨r, hr, hfr⟩ := List.mem_map.mp hp
        have hr3 := mem_sortByTs r _ (mem_groupTail1 r _ hr)
        have hmf := List.mem_filter.mp hr3
        subst hfr
        exact ⟨r, hmf.1, by simpa using hmf.2, rfl⟩

/-- Witness for C6's amended theorem: the single key of a concrete
`latest_status_map` is the raw display text of a stored row. -/
theorem storage_key_is_display_text_witness :
    ∃ r, r ∈ upsert_log [] "2024-06-12" "Thursday" [("Refill Soap", true)] "" "t0" ∧
      r.date = "2024-06-12" ∧ r.task = "Refill Soap" :=
  (storage_key_is_display_text [] "2024-06-12" "Thursday"
      [("Refill Soap", true)] "" "t0").2
    (upsert_log [] "2024-06-12" "Thursday" [("Refill Soap", true)] "" "t0")
    "2024-06-12" ("Refill Soap", true) (by decide)

end HelperSchedule
